import Mathlib

/-!
Shallow embedding of `saga/utils/pty_process.py` (class `PTYProcess`).

The controller state is a record of the instance attributes that the
operations touch.  Interaction with the operating system (select, os.read,
os.write, time.time, os.waitpid, pty.fork) is modelled by an explicit trace
of `OsEvent`s which each OS call consumes in order; a trace whose next event
does not fit the OS call the code performs, or an exhausted trace, yields
`none`.  The unbounded `while True` loops take a `fuel` argument; `none`
also stands for "the call has not returned within the given fuel", so
non-termination of a loop is expressed as: the function yields `none` for
every fuel.  Bytes are natural numbers (Python 2 one-character strings);
carriage return is byte 13.
-/

namespace PtyModel

/-- A byte of the PTY stream (a Python 2 `str` character). -/
abbrev Byte := Nat

/-- Python `s.replace('\r', '')`: drop every carriage-return byte (0x0D). -/
def stripCR (bs : List Byte) : List Byte := bs.filter (fun b => b ≠ 13)

/-- Python `s[-n:]`: the last `n` bytes of `bs` (all of `bs` when shorter). -/
def lastN (n : Nat) (bs : List Byte) : List Byte := bs.drop (bs.length - n)

/-- POSIX `os.WIFSTOPPED`: low status byte is 0x7f. -/
def wifstopped (w : Nat) : Bool := w % 256 == 127

/-- POSIX `os.WIFCONTINUED`: status is 0xffff. -/
def wifcontinued (w : Nat) : Bool := w == 65535

/-- POSIX `os.WIFEXITED`: termination signal bits (low 7) are zero. -/
def wifexited (w : Nat) : Bool := w % 128 == 0

/-- POSIX `os.WEXITSTATUS`: second byte of the status. -/
def wexitstatus (w : Nat) : Nat := (w / 256) % 256

/-- POSIX `os.WIFSIGNALED`: low 7 bits neither 0 (exited) nor 0x7f (stopped). -/
def wifsignaled (w : Nat) : Bool := w % 128 != 0 && w % 128 != 127

/-- POSIX `os.WTERMSIG`: low 7 bits of the status. -/
def wtermsig (w : Nat) : Nat := w % 128

/-- The mutable attributes of a `PTYProcess` instance.  `child` is the pid of
the live child (`self.child`, `None` encoded as `none`); `parent_in` /
`parent_out` are the master-fd aliases set by `initialize` and cleared by
`finalize`; `cache` is the byte buffer `self.cache`. -/
structure PTYState where
  cache : List Byte
  child : Option Nat
  parent_in : Option Nat
  parent_out : Option Nat
  exit_code : Option Nat
  exit_signal : Option Nat
  recover_max : Nat
  recover_attempts : Nat
deriving Repr, DecidableEq

/-- One observable OS interaction, consumed in order from the trace.
`selRead b` is the outcome of `select([parent_out], [], [], _POLLDELAY)`
(`b` = fd ready); `rd buf` the bytes handed back by `os.read`; `selWrite` /
`wr` the analogues for the write direction; `tm t` a `time.time()` reading
(time measured in units of `_POLLDELAY`); `wp wpid wstat` an `os.waitpid`
result; `wpErr echild` an `OSError` from `waitpid` (`echild` = errno is
ECHILD); `forkOk pid fd` a successful `pty.fork` seen from the parent. -/
inductive OsEvent where
  | selRead (ready : Bool)
  | selWrite (ready : Bool)
  | rd (buf : List Byte)
  | wr (n : Nat)
  | tm (t : Int)
  | wp (wpid wstat : Nat)
  | wpErr (echild : Bool)
  | forkOk (pid fd : Nat)
deriving Repr, DecidableEq

/-- The exceptions the modelled operations can surface: `notAlive` is the
`NoSuccess` raised by `read`/`write` on a dead child (IoError kind);
`eof tail` the `NoSuccess` "unexpected EOF" raised on a zero-length read,
carrying `cache[-256:]`; `waitFail` the `NoSuccess` from a non-ECHILD
`waitpid` failure in `wait`; `parseFail` the `NoSuccess` "output parsing
failed" into which `find` rewraps any exception of its body. -/
inductive Err where
  | notAlive
  | eof (tail : List Byte)
  | waitFail
  | parseFail
deriving Repr, DecidableEq

/-- The `while True: os.waitpid(self.child, 0)` loop inside `finalize`:
an `OSError` breaks with the exit fields to be cleared (`none` outcome);
a reap with nonzero `wpid` breaks with that status; `wpid == 0` retries. -/
def finWait : List OsEvent → Option (Option Nat × List OsEvent)
  | OsEvent.wpErr _ :: rest => some (none, rest)
  | OsEvent.wp wpid wstat :: rest =>
      if wpid = 0 then finWait rest else some (some wstat, rest)
  | _ => none

/-- The post-mortem classification block of `finalize`: `WIFEXITED` records
`exit_code`, `WIFSIGNALED` records `exit_signal`; no status leaves both. -/
def classify (ws : Option Nat) (s : PTYState) : PTYState :=
  match ws with
  | none => s
  | some w =>
      if wifexited w then
        { s with exit_code := some (wexitstatus w), exit_signal := none }
      else if wifsignaled w then
        { s with exit_code := none, exit_signal := some (wtermsig w) }
      else s

/-- The `os.close(self.parent_out)` block of `finalize`: closes the master
fd when it is still open, and reports how many closes were performed. -/
def closeOut (s : PTYState) : PTYState × Nat :=
  match s.parent_out with
  | some _ => ({ s with parent_out := none }, 1)
  | none => (s, 0)

/-- `PTYProcess.finalize(wstat=None)`.  With no status supplied and a live
child it kills the child (no observable result) and blocking-reaps it via
`finWait`; then the child pid is cleared, the status (when any) classified,
and the master fd closed.  The returned `Nat` counts the `os.close` calls.
The Python method raises nothing (errors of `kill`, `waitpid` and `close`
are swallowed), so there is no error channel here. -/
def finalize (ws : Option Nat) (s : PTYState) (env : List OsEvent) :
    Option (PTYState × List OsEvent × Nat) :=
  match ws with
  | some w =>
      let s1 := classify (some w) { s with child := none }
      some ((closeOut s1).1, env, (closeOut s1).2)
  | none =>
      match s.child with
      | none =>
          let s1 := classify none { s with child := none }
          some ((closeOut s1).1, env, (closeOut s1).2)
      | some _ =>
          match finWait env with
          | none => none
          | some (res, rest) =>
              let s0 :=
                match res with
                | none => { s with exit_code := none, exit_signal := none }
                | some _ => s
              let s1 := classify res { s0 with child := none }
              some ((closeOut s1).1, rest, (closeOut s1).2)

/-- The `os.waitpid(self.child, os.WNOHANG)` loop inside `alive`:
`wpid == 0` means the child is alive (`none` verdict); stop/continue events
are skipped; any other status is the death verdict. -/
def aliveWait : List OsEvent → Option (Option Nat × List OsEvent)
  | OsEvent.wp wpid wstat :: rest =>
      if wpid = 0 then some (none, rest)
      else if wifstopped wstat || wifcontinued wstat then aliveWait rest
      else some (some wstat, rest)
  | _ => none

/-- The child-probing phase of `alive`: with no child fall through as dead;
with a child, reap non-blockingly; on death clear the pid and `finalize`
with the collected status. -/
def aliveCheck (s : PTYState) (env : List OsEvent) :
    Option (Bool × PTYState × List OsEvent) :=
  match s.child with
  | none => some (false, s, env)
  | some _ =>
      match aliveWait env with
      | none => none
      | some (none, rest) => some (true, s, rest)
      | some (some w, rest) =>
          match finalize (some w) { s with child := none } rest with
          | none => none
          | some (s1, rest1, _) => some (false, s1, rest1)

/-- `PTYProcess.initialize` as seen from the parent on the recovery path:
warn and return when a child already exists, otherwise `pty.fork` and keep
the master fd in both `parent_in` and `parent_out`. -/
def spawnChild (s : PTYState) (env : List OsEvent) :
    Option (PTYState × List OsEvent) :=
  match s.child with
  | some _ => some (s, env)
  | none =>
      match env with
      | OsEvent.forkOk pid fd :: rest =>
          some ({ s with child := some pid,
                         parent_in := some fd, parent_out := some fd }, rest)
      | _ => none

/-- `PTYProcess.alive(recover)`.  Probes the child; when dead and recovery
is allowed and `recover_attempts < recover_max`, increments the counter,
respawns, and recurses.  The extra `List Nat` output is a ghost log holding
the value of `recover_attempts` at the moment of each respawn. -/
def alive (recover : Bool) (s : PTYState) (env : List OsEvent) (fuel : Nat) :
    Option (Bool × PTYState × List OsEvent × List Nat) :=
  match fuel with
  | 0 => none
  | Nat.succ fuel =>
      match aliveCheck s env with
      | none => none
      | some (true, s1, env1) => some (true, s1, env1, [])
      | some (false, s1, env1) =>
          if recover = false then some (false, s1, env1, [])
          else if s1.recover_max ≤ s1.recover_attempts then
            some (false, s1, env1, [])
          else
            match spawnChild
                { s1 with recover_attempts := s1.recover_attempts + 1 } env1 with
            | none => none
            | some (s2, env2) =>
                match alive true s2 env2 fuel with
                | none => none
                | some (b, s3, env3, log) =>
                    some (b, s3, env3, (s1.recover_attempts + 1) :: log)

/-- The timeout `_POLLDELAY` passed by `find` to its inner reads, in the
time unit of the model (one unit = one `_POLLDELAY` of 10 ms). -/
def pollDelay : Int := 1

/-- The two identical cache-service checks inside the `read` loop: with
`size == 0` drain and return the whole cache, with `0 < size ≤ |cache|`
return the prefix and keep the rest; otherwise no service. -/
def cacheHit (size : Nat) (s : PTYState) : Option (List Byte × PTYState) :=
  if s.cache = [] then none
  else if size = 0 then some (s.cache, { s with cache := [] })
  else if size ≤ s.cache.length then
    some (s.cache.take size, { s with cache := s.cache.drop size })
  else none

/-- Outcome of one `select` + `os.read` round of the `read` loop. -/
inductive PollOut where
  | eofStop (res : Except Err (List Byte)) (s : PTYState) (env : List OsEvent)
  | cont (s : PTYState) (env : List OsEvent)

/-- One `select([parent_out], [], [], _POLLDELAY)` round of `read`.  When
the fd is ready, `os.read` yields `buf`; a zero-length `buf` on the darwin
platform finalizes the controller and raises "unexpected EOF" with
`cache[-256:]`; otherwise `buf.replace('\r', '')` is appended to the cache.
A non-ready poll leaves the state alone. -/
def pollIngest (platform : String) (s : PTYState) (env : List OsEvent) :
    Option PollOut :=
  match env with
  | OsEvent.selRead true :: OsEvent.rd buf :: env2 =>
      if buf = [] ∧ platform = "darwin" then
        match finalize none s env2 with
        | none => none
        | some (s1, env3, _) =>
            some (PollOut.eofStop
              (Except.error (Err.eof (lastN 256 s1.cache))) s1 env3)
      else
        some (PollOut.cont { s with cache := s.cache ++ stripCR buf } env2)
  | OsEvent.selRead false :: env1 => some (PollOut.cont s env1)
  | _ => none

/-- The `while True` loop of `PTYProcess.read` after the liveness check and
the `start = time.time()` stamp: serve from the cache; poll and ingest one
chunk; serve from the cache again; then apply the timeout policy
(`timeout == 0`: return only when the cache holds data; `timeout < 0`:
return the cache, possibly empty; `timeout > 0`: return the cache once
`now - start > timeout`). -/
def readLoop (platform : String) (size : Nat) (timeout start : Int)
    (s : PTYState) (env : List OsEvent) (fuel : Nat) :
    Option (Except Err (List Byte) × PTYState × List OsEvent) :=
  match fuel with
  | 0 => none
  | Nat.succ fuel =>
      match cacheHit size s with
      | some (r, s1) => some (Except.ok r, s1, env)
      | none =>
          match pollIngest platform s env with
          | none => none
          | some (PollOut.eofStop res s1 env1) => some (res, s1, env1)
          | some (PollOut.cont s2 env2) =>
              match cacheHit size s2 with
              | some (r, s3) => some (Except.ok r, s3, env2)
              | none =>
                  if timeout = 0 then
                    if s2.cache = [] then
                      readLoop platform size timeout start s2 env2 fuel
                    else
                      some (Except.ok s2.cache, { s2 with cache := [] }, env2)
                  else if timeout < 0 then
                    some (Except.ok s2.cache, { s2 with cache := [] }, env2)
                  else
                    match env2 with
                    | OsEvent.tm now :: env3 =>
                        if timeout < now - start then
                          some (Except.ok s2.cache, { s2 with cache := [] },
                                env3)
                        else readLoop platform size timeout start s2 env3 fuel
                    | _ => none

/-- `PTYProcess.read(size, timeout)`: fail with the IoError-kind
`NoSuccess` when `alive(recover=False)` reports a dead child, else stamp
`start` and enter the loop. -/
def read (platform : String) (size : Nat) (timeout : Int)
    (s : PTYState) (env : List OsEvent) (fuel : Nat) :
    Option (Except Err (List Byte) × PTYState × List OsEvent) :=
  match alive false s env fuel with
  | none => none
  | some (false, s1, env1, _) => some (Except.error Err.notAlive, s1, env1)
  | some (true, s1, env1, _) =>
      match env1 with
      | OsEvent.tm start :: env2 =>
          readLoop platform size timeout start s1 env2 fuel
      | _ => none

/-- A compiled regex as `find` uses it: `p data` is `p.search(data)`,
returning the span `(start, end)` of the leftmost match, or `none`. -/
def Pat := List Byte → Option (Nat × Nat)

/-- The `for n in range(0, len(patts))` pass of `find`: try the compiled
patterns in list order and stop at the first whose `search` succeeds,
yielding its index and match end. -/
def searchFirst (patts : List Pat) (data : List Byte) : Option (Nat × Nat) :=
  match patts with
  | [] => none
  | p :: rest =>
      match p data with
      | some (_, e) => some (0, e)
      | none =>
          match searchFirst rest data with
          | some (n, e) => some (n + 1, e)
          | none => none

/-- Leftmost occurrence search for a literal byte pattern, the behaviour of
`re.compile(pat, re.MULTILINE | re.DOTALL).search(data)` when `pat` holds
no regex metacharacters: scan positions left to right and report the span
of the first position where `pat` is a prefix of the rest of `data`. -/
def litSearchAux (pat : List Byte) (data : List Byte) (pos : Nat) :
    Option (Nat × Nat) :=
  if pat.isPrefixOf data then some (pos, pos + pat.length)
  else
    match data with
    | [] => none
    | _ :: t => litSearchAux pat t (pos + 1)

/-- A literal pattern as a compiled regex. -/
def litPat (pat : List Byte) : Pat := fun data => litSearchAux pat data 0

/-- The `while True` loop of `PTYProcess.find`: search the accumulated
`data` with every pattern in order; on a match return the pattern index
and `data[0:match.end()]` with carriage returns stripped, caching
`data[match.end():]`; on a miss with `timeout == 0` return `(None, None)`
discarding `data`; with `timeout > 0` past the deadline restore `data`
into the cache and return `(None, None)`; otherwise append another
`read(timeout=_POLLDELAY)` and loop.  An exception out of a sub-read is
rewrapped as the "output parsing failed" `NoSuccess`.  The `List (List
Byte)` output is a ghost log of the values returned by the sub-reads. -/
def findLoop (patts : List Pat) (timeout start : Int) (platform : String)
    (data : List Byte) (s : PTYState) (env : List OsEvent) (fuel : Nat) :
    Option (Except Err (Option Nat × Option (List Byte)) × PTYState ×
            List OsEvent × List (List Byte)) :=
  match fuel with
  | 0 => none
  | Nat.succ fuel =>
      match searchFirst patts data with
      | some (n, e) =>
          some (Except.ok (some n, some (stripCR (data.take e))),
                { s with cache := data.drop e }, env, [])
      | none =>
          if timeout = 0 then some (Except.ok (none, none), s, env, [])
          else if 0 < timeout then
            match env with
            | OsEvent.tm now :: env1 =>
                if timeout < now - start then
                  some (Except.ok (none, none), { s with cache := data },
                        env1, [])
                else
                  match read platform 0 pollDelay s env1 fuel with
                  | none => none
                  | some (Except.error _, s1, env2) =>
                      some (Except.error Err.parseFail, s1, env2, [])
                  | some (Except.ok r, s1, env2) =>
                      match findLoop patts timeout start platform (data ++ r)
                          s1 env2 fuel with
                      | none => none
                      | some (res, s2, env3, log) =>
                          some (res, s2, env3, r :: log)
            | _ => none
          else
            match read platform 0 pollDelay s env fuel with
            | none => none
            | some (Except.error _, s1, env2) =>
                some (Except.error Err.parseFail, s1, env2, [])
            | some (Except.ok r, s1, env2) =>
                match findLoop patts timeout start platform (data ++ r)
                    s1 env2 fuel with
                | none => none
                | some (res, s2, env3, log) =>
                    some (res, s2, env3, r :: log)

/-- `PTYProcess.find(patterns, timeout)`: stamp `start`, drain the cache
into `data`, pull one `read(timeout=_POLLDELAY)` when the cache was empty,
then enter the loop. -/
def find (patts : List Pat) (timeout : Int) (platform : String)
    (s : PTYState) (env : List OsEvent) (fuel : Nat) :
    Option (Except Err (Option Nat × Option (List Byte)) × PTYState ×
            List OsEvent × List (List Byte)) :=
  match env with
  | OsEvent.tm start :: env1 =>
      if s.cache = [] then
        match read platform 0 pollDelay { s with cache := [] } env1 fuel with
        | none => none
        | some (Except.error _, s2, env2) =>
            some (Except.error Err.parseFail, s2, env2, [])
        | some (Except.ok r, s2, env2) =>
            match findLoop patts timeout start platform r s2 env2 fuel with
            | none => none
            | some (res, s3, env3, log) => some (res, s3, env3, r :: log)
      else
        findLoop patts timeout start platform s.cache
          { s with cache := [] } env1 fuel
  | _ => none

/-- The `while data` loop of `PTYProcess.write`: poll the master fd for
writability; when ready, one `os.write` hands `n` bytes to the kernel and
the written prefix is trimmed from `data`. -/
def writeLoop (data : List Byte) (s : PTYState) (env : List OsEvent)
    (fuel : Nat) : Option (Except Err Unit × PTYState × List OsEvent) :=
  match fuel with
  | 0 => none
  | Nat.succ fuel =>
      if data = [] then some (Except.ok (), s, env)
      else
        match env with
        | OsEvent.selWrite true :: OsEvent.wr n :: env2 =>
            writeLoop (data.drop n) s env2 fuel
        | OsEvent.selWrite false :: env1 => writeLoop data s env1 fuel
        | _ => none

/-- `PTYProcess.write(data)`: fail with the IoError-kind `NoSuccess` when
`alive(recover=False)` reports a dead child, else push all bytes. -/
def write (data : List Byte) (s : PTYState) (env : List OsEvent)
    (fuel : Nat) : Option (Except Err Unit × PTYState × List OsEvent) :=
  match alive false s env fuel with
  | none => none
  | some (false, s1, env1, _) => some (Except.error Err.notAlive, s1, env1)
  | some (true, s1, env1, _) => writeLoop data s1 env1 fuel

/-- `PTYProcess.wait()`: blocking-reap until the child terminates; ECHILD
clears the exit fields and finalizes (with the pid still set, as in the
source); another `waitpid` error raises; stop/continue events are skipped;
a death status clears the pid and finalizes with that status. -/
def wait (s : PTYState) (env : List OsEvent) (fuel : Nat) :
    Option (Except Err Unit × PTYState × List OsEvent) :=
  match fuel with
  | 0 => none
  | Nat.succ fuel =>
      match s.child with
      | none => some (Except.ok (), s, env)
      | some _ =>
          match env with
          | OsEvent.wpErr echild :: env1 =>
              if echild then
                match finalize none
                    { s with exit_code := none, exit_signal := none } env1 with
                | none => none
                | some (s1, env2, _) => some (Except.ok (), s1, env2)
              else some (Except.error Err.waitFail, s, env1)
          | OsEvent.wp wpid wstat :: env1 =>
              if wpid = 0 then wait s env1 fuel
              else if wifstopped wstat || wifcontinued wstat then
                wait s env1 fuel
              else
                match finalize (some wstat) { s with child := none } env1 with
                | none => none
                | some (s1, env2, _) => some (Except.ok (), s1, env2)
          | _ => none
termination_by structural fuel

/-- What `PTYProcess.autopsy()` reports: a "still alive" notice, or the
exit code, exit signal and last 256 cache bytes of the dead child. -/
inductive AutopsyOut where
  | stillAlive (pid : Nat)
  | report (code : Option Nat) (sig : Option Nat) (tail : List Byte)
deriving Repr, DecidableEq

/-- `PTYProcess.autopsy()`: purely reads the state. -/
def autopsy (s : PTYState) : AutopsyOut × PTYState :=
  match s.child with
  | some p => (AutopsyOut.stillAlive p, s)
  | none =>
      (AutopsyOut.report s.exit_code s.exit_signal (lastN 256 s.cache), s)

/-- One invocation of a public controller operation, with its arguments
and its OS trace. -/
inductive OpCall where
  | rdOp (platform : String) (size : Nat) (timeout : Int)
      (env : List OsEvent) (fuel : Nat)
  | findOp (patts : List Pat) (timeout : Int) (platform : String)
      (env : List OsEvent) (fuel : Nat)
  | writeOp (data : List Byte) (env : List OsEvent) (fuel : Nat)
  | aliveOp (recover : Bool) (env : List OsEvent) (fuel : Nat)
  | waitOp (env : List OsEvent) (fuel : Nat)
  | finOp (ws : Option Nat) (env : List OsEvent)
  | autopsyOp

/-- The controller state an operation leaves behind (on normal return and
on a raised exception alike). -/
def runOpState : OpCall → PTYState → Option PTYState
  | OpCall.rdOp p sz t env fu, s => (read p sz t s env fu).map (·.2.1)
  | OpCall.findOp ps t p env fu, s => (find ps t p s env fu).map (·.2.1)
  | OpCall.writeOp d env fu, s => (write d s env fu).map (·.2.1)
  | OpCall.aliveOp r env fu, s => (alive r s env fu).map (·.2.1)
  | OpCall.waitOp env fu, s => (wait s env fu).map (·.2.1)
  | OpCall.finOp ws env, s => (finalize ws s env).map (·.1)
  | OpCall.autopsyOp, s => some (autopsy s).2

/-- The cache invariant of the spec: no carriage-return byte is stored. -/
def noCR (bs : List Byte) : Prop := ∀ b ∈ bs, b ≠ 13

/-- A live controller: child pid 7 on master fd 3, empty cache, the default
`recover_max` of 3, and no recovery attempt spent yet. -/
def exAlive : PTYState :=
  { cache := [], child := some 7, parent_in := some 3, parent_out := some 3,
    exit_code := none, exit_signal := none, recover_max := 3,
    recover_attempts := 0 }

/-- The same controller with no child (dead and already reaped). -/
def exDead : PTYState := { exAlive with child := none }

theorem noCR_stripCR (bs : List Byte) : noCR (stripCR bs) := by
  intro b hb
  simp [stripCR, List.mem_filter] at hb
  exact hb.2

theorem noCR_append {a b : List Byte} (ha : noCR a) (hb : noCR b) :
    noCR (a ++ b) := by
  intro x hx
  rcases List.mem_append.mp hx with h | h
  · exact ha x h
  · exact hb x h

theorem noCR_sub {a b : List Byte} (h : a ⊆ b) (hb : noCR b) : noCR a :=
  fun x hx => hb x (h hx)

theorem noCR_nil : noCR [] := by intro b hb; cases hb

@[simp] theorem classify_cache (ws : Option Nat) (s : PTYState) :
    (classify ws s).cache = s.cache := by
  cases ws <;> simp only [classify] <;> (try split) <;> (try split) <;> rfl

@[simp] theorem classify_ra (ws : Option Nat) (s : PTYState) :
    (classify ws s).recover_attempts = s.recover_attempts := by
  cases ws <;> simp only [classify] <;> (try split) <;> (try split) <;> rfl

@[simp] theorem classify_rm (ws : Option Nat) (s : PTYState) :
    (classify ws s).recover_max = s.recover_max := by
  cases ws <;> simp only [classify] <;> (try split) <;> (try split) <;> rfl

@[simp] theorem classify_child (ws : Option Nat) (s : PTYState) :
    (classify ws s).child = s.child := by
  cases ws <;> simp only [classify] <;> (try split) <;> (try split) <;> rfl

@[simp] theorem classify_pout (ws : Option Nat) (s : PTYState) :
    (classify ws s).parent_out = s.parent_out := by
  cases ws <;> simp only [classify] <;> (try split) <;> (try split) <;> rfl

@[simp] theorem closeOut_cache (s : PTYState) :
    (closeOut s).1.cache = s.cache := by
  rcases hp : s.parent_out with _ | f <;> simp [closeOut, hp]

@[simp] theorem closeOut_ra (s : PTYState) :
    (closeOut s).1.recover_attempts = s.recover_attempts := by
  rcases hp : s.parent_out with _ | f <;> simp [closeOut, hp]

@[simp] theorem closeOut_rm (s : PTYState) :
    (closeOut s).1.recover_max = s.recover_max := by
  rcases hp : s.parent_out with _ | f <;> simp [closeOut, hp]

@[simp] theorem closeOut_child (s : PTYState) :
    (closeOut s).1.child = s.child := by
  rcases hp : s.parent_out with _ | f <;> simp [closeOut, hp]

@[simp] theorem closeOut_pout (s : PTYState) :
    (closeOut s).1.parent_out = none := by
  rcases hp : s.parent_out with _ | f <;> simp [closeOut, hp]

theorem finalize_frame {ws : Option Nat} {s : PTYState} {env : List OsEvent}
    {s' : PTYState} {env' : List OsEvent} {k : Nat}
    (h : finalize ws s env = some (s', env', k)) :
    s'.cache = s.cache ∧ s'.recover_attempts = s.recover_attempts ∧
    s'.recover_max = s.recover_max ∧ s'.child = none ∧
    s'.parent_out = none := by
  unfold finalize at h
  split at h
  · obtain ⟨rfl, rfl, rfl⟩ := by simpa using h
    simp
  · split at h
    · obtain ⟨rfl, rfl, rfl⟩ := by simpa using h
      simp
    · split at h
      · exact absurd h (by simp)
      · obtain ⟨rfl, rfl, rfl⟩ := by simpa using h
        split <;> simp

theorem aliveCheck_frame {s : PTYState} {env : List OsEvent} {b : Bool}
    {s1 : PTYState} {env1 : List OsEvent}
    (h : aliveCheck s env = some (b, s1, env1)) :
    s1.cache = s.cache ∧ s1.recover_attempts = s.recover_attempts ∧
    s1.recover_max = s.recover_max := by
  unfold aliveCheck at h
  split at h
  · obtain ⟨rfl, rfl, rfl⟩ := by simpa using h
    exact ⟨rfl, rfl, rfl⟩
  · split at h
    · exact absurd h (by simp)
    · obtain ⟨rfl, rfl, rfl⟩ := by simpa using h
      exact ⟨rfl, rfl, rfl⟩
    · split at h
      · exact absurd h (by simp)
      · obtain ⟨rfl, rfl, rfl⟩ := by simpa using h
        have := finalize_frame (by assumption)
        exact ⟨this.1, this.2.1, this.2.2.1⟩

theorem spawnChild_frame {s : PTYState} {env : List OsEvent}
    {s2 : PTYState} {env2 : List OsEvent}
    (h : spawnChild s env = some (s2, env2)) :
    s2.cache = s.cache ∧ s2.recover_attempts = s.recover_attempts ∧
    s2.recover_max = s.recover_max := by
  unfold spawnChild at h
  split at h
  · obtain ⟨rfl, rfl⟩ := by simpa using h
    exact ⟨rfl, rfl, rfl⟩
  · split at h
    · obtain ⟨rfl, rfl⟩ := by simpa using h
      exact ⟨rfl, rfl, rfl⟩
    · exact absurd h (by simp)

theorem alive_mono {r : Bool} {s : PTYState} {env : List OsEvent} {fuel : Nat}
    {b : Bool} {s' : PTYState} {env' : List OsEvent} {log : List Nat}
    (h : alive r s env fuel = some (b, s', env', log)) :
    s.recover_attempts ≤ s'.recover_attempts ∧
    s'.recover_max = s.recover_max ∧ s'.cache = s.cache ∧
    ∀ a ∈ log, a ≤ s.recover_max := by
  induction fuel generalizing r s env b s' env' log with
  | zero => exact absurd h (by simp [alive])
  | succ fuel ih =>
      unfold alive at h
      split at h
      · exact absurd h (by simp)
      · rename_i heq
        obtain ⟨hc, hra, hrm⟩ := aliveCheck_frame heq
        obtain ⟨rfl, rfl, rfl, rfl⟩ := by simpa using h
        simp [hra, hrm, hc]
      · rename_i s1 env1 heq
        obtain ⟨hc, hra, hrm⟩ := aliveCheck_frame heq
        split at h
        · obtain ⟨rfl, rfl, rfl, rfl⟩ := by simpa using h
          simp [hra, hrm, hc]
        · split at h
          · obtain ⟨rfl, rfl, rfl, rfl⟩ := by simpa using h
            simp [hra, hrm, hc]
          · rename_i hlt
            split at h
            · exact absurd h (by simp)
            · rename_i s2 env2 hsp
              obtain ⟨hc2, hra2, hrm2⟩ := spawnChild_frame hsp
              split at h
              · exact absurd h (by simp)
              · rename_i b3 s3 env3 log3 hrec
                obtain ⟨ih1, ih2, ih3, ih4⟩ := ih hrec
                obtain ⟨rfl, rfl, rfl, rfl⟩ := by simpa using h
                refine ⟨?_, ?_, ?_, ?_⟩
                · calc s.recover_attempts = s1.recover_attempts := hra.symm
                    _ ≤ s1.recover_attempts + 1 := Nat.le_succ _
                    _ = s2.recover_attempts := by simp [hra2]
                    _ ≤ s3.recover_attempts := ih1
                · rw [ih2, hrm2]; simp [hrm]
                · rw [ih3, hc2]; simp [hc]
                · intro a ha
                  rcases List.mem_cons.mp ha with rfl | ha
                  · have : s1.recover_attempts < s1.recover_max :=
                      Nat.lt_of_not_le hlt
                    omega
                  · have := ih4 a ha
                    rw [hrm2] at this
                    simp at this
                    omega

theorem alive_false {s : PTYState} {env : List OsEvent} {fuel : Nat}
    {b : Bool} {s' : PTYState} {env' : List OsEvent} {log : List Nat}
    (h : alive false s env fuel = some (b, s', env', log)) :
    s'.cache = s.cache ∧ s'.recover_attempts = s.recover_attempts ∧
    s'.recover_max = s.recover_max ∧ log = [] := by
  cases fuel with
  | zero => exact absurd h (by simp [alive])
  | succ fuel =>
      unfold alive at h
      split at h
      · exact absurd h (by simp)
      · rename_i heq
        obtain ⟨hc, hra, hrm⟩ := aliveCheck_frame heq
        obtain ⟨rfl, rfl, rfl, rfl⟩ := by simpa using h
        exact ⟨hc, hra, hrm, rfl⟩
      · rename_i s1 env1 heq
        obtain ⟨hc, hra, hrm⟩ := aliveCheck_frame heq
        rw [if_pos rfl] at h
        obtain ⟨rfl, rfl, rfl, rfl⟩ := by simpa using h
        exact ⟨hc, hra, hrm, rfl⟩

theorem pollIngest_eof {platform : String} {s : PTYState} {env : List OsEvent}
    {res : Except Err (List Byte)} {s1 : PTYState} {env1 : List OsEvent}
    (h : pollIngest platform s env = some (PollOut.eofStop res s1 env1)) :
    s1.cache = s.cache ∧ s1.recover_attempts = s.recover_attempts ∧
    s1.recover_max = s.recover_max ∧
    ∃ t, res = Except.error (Err.eof t) := by
  unfold pollIngest at h
  split at h
  · split at h
    · split at h
      · exact absurd h (by simp)
      · rename_i hfin
        obtain ⟨rfl, rfl, rfl⟩ := by simpa using h
        have hf := finalize_frame hfin
        exact ⟨hf.1, hf.2.1, hf.2.2.1, _, rfl⟩
    · exact absurd h (by simp)
  · exact absurd h (by simp)
  · exact absurd h (by simp)

theorem pollIngest_cont {platform : String} {s : PTYState} {env : List OsEvent}
    {s2 : PTYState} {env2 : List OsEvent}
    (h : pollIngest platform s env = some (PollOut.cont s2 env2)) :
    s2.recover_attempts = s.recover_attempts ∧
    s2.recover_max = s.recover_max ∧
    (noCR s.cache → noCR s2.cache) := by
  unfold pollIngest at h
  split at h
  · split at h
    · split at h <;> exact absurd h (by simp)
    · obtain ⟨rfl, rfl⟩ := by simpa using h
      exact ⟨rfl, rfl, fun hn => noCR_append hn (noCR_stripCR _)⟩
  · obtain ⟨rfl, rfl⟩ := by simpa using h
    exact ⟨rfl, rfl, fun hn => hn⟩
  · exact absurd h (by simp)

theorem cacheHit_inv {size : Nat} {s : PTYState} {r : List Byte}
    {s1 : PTYState} (h : cacheHit size s = some (r, s1)) :
    s1.recover_attempts = s.recover_attempts ∧
    s1.recover_max = s.recover_max ∧
    (size = 0 → s1.cache = []) ∧
    (noCR s.cache → noCR s1.cache ∧ noCR r) := by
  unfold cacheHit at h
  split at h
  · exact absurd h (by simp)
  · split at h
    · obtain ⟨rfl, rfl⟩ := by simpa using h
      exact ⟨rfl, rfl, fun _ => rfl, fun hn => ⟨noCR_nil, hn⟩⟩
    · split at h
      · rename_i hsz _
        obtain ⟨rfl, rfl⟩ := by simpa using h
        refine ⟨rfl, rfl, fun h0 => absurd h0 hsz, fun hn => ?_⟩
        exact ⟨noCR_sub (List.drop_subset _ _) hn,
               noCR_sub (List.take_subset _ _) hn⟩
      · exact absurd h (by simp)

theorem readLoop_inv {platform : String} {size : Nat} {timeout start : Int}
    {s : PTYState} {env : List OsEvent} {fuel : Nat}
    {res : Except Err (List Byte)} {s' : PTYState} {env' : List OsEvent}
    (h : readLoop platform size timeout start s env fuel
           = some (res, s', env')) :
    s'.recover_attempts = s.recover_attempts ∧
    s'.recover_max = s.recover_max ∧
    (size = 0 → ∀ r, res = Except.ok r → s'.cache = []) ∧
    (noCR s.cache → noCR s'.cache ∧ ∀ r, res = Except.ok r → noCR r) := by
  induction fuel generalizing s env res s' env' with
  | zero => exact absurd h (by simp [readLoop])
  | succ fuel ih =>
      unfold readLoop at h
      split at h
      · rename_i r1 s1 hch
        obtain ⟨rfl, rfl, rfl⟩ := by simpa using h
        obtain ⟨h1, h2, h3, h4⟩ := cacheHit_inv hch
        refine ⟨h1, h2, fun h0 _ hr => h3 h0, fun hn => ?_⟩
        obtain ⟨ha, hb⟩ := h4 hn
        exact ⟨ha, fun r hr => by cases hr; exact hb⟩
      · split at h
        · exact absurd h (by simp)
        · rename_i res1 s1 env1 hpi
          obtain ⟨rfl, rfl, rfl⟩ := by simpa using h
          obtain ⟨hc, h1, h2, t, rfl⟩ := pollIngest_eof hpi
          refine ⟨h1, h2, ?_, ?_⟩
          · intro _ r hr
            simp at hr
          · intro hn
            rw [hc]
            refine ⟨hn, ?_⟩
            intro r hr
            simp at hr
        · rename_i s2 env2 hpi
          obtain ⟨h1, h2, h3⟩ := pollIngest_cont hpi
          split at h
          · rename_i r1 s3 hch
            obtain ⟨rfl, rfl, rfl⟩ := by simpa using h
            obtain ⟨g1, g2, g3, g4⟩ := cacheHit_inv hch
            refine ⟨g1.trans h1, g2.trans h2, fun h0 _ hr => g3 h0,
                    fun hn => ?_⟩
            obtain ⟨ha, hb⟩ := g4 (h3 hn)
            exact ⟨ha, fun r hr => by cases hr; exact hb⟩
          · split at h
            · split at h
              · obtain ⟨g1, g2, g3, g4⟩ := ih h
                refine ⟨g1.trans h1, g2.trans h2, g3, fun hn => g4 (h3 hn)⟩
              · obtain ⟨rfl, rfl, rfl⟩ := by simpa using h
                refine ⟨h1, h2, fun _ _ _ => rfl, fun hn => ?_⟩
                exact ⟨noCR_nil, fun r hr => by cases hr; exact h3 hn⟩
            · split at h
              · obtain ⟨rfl, rfl, rfl⟩ := by simpa using h
                refine ⟨h1, h2, fun _ _ _ => rfl, fun hn => ?_⟩
                exact ⟨noCR_nil, fun r hr => by cases hr; exact h3 hn⟩
              · split at h
                · split at h
                  · obtain ⟨rfl, rfl, rfl⟩ := by simpa using h
                    refine ⟨h1, h2, fun _ _ _ => rfl, fun hn => ?_⟩
                    exact ⟨noCR_nil, fun r hr => by cases hr; exact h3 hn⟩
                  · obtain ⟨g1, g2, g3, g4⟩ := ih h
                    refine ⟨g1.trans h1, g2.trans h2, g3,
                            fun hn => g4 (h3 hn)⟩
                · exact absurd h (by simp)

theorem read_inv {platform : String} {size : Nat} {timeout : Int}
    {s : PTYState} {env : List OsEvent} {fuel : Nat}
    {res : Except Err (List Byte)} {s' : PTYState} {env' : List OsEvent}
    (h : read platform size timeout s env fuel = some (res, s', env')) :
    s'.recover_attempts = s.recover_attempts ∧
    s'.recover_max = s.recover_max ∧
    (size = 0 → ∀ r, res = Except.ok r → s'.cache = []) ∧
    (noCR s.cache → noCR s'.cache ∧ ∀ r, res = Except.ok r → noCR r) := by
  unfold read at h
  split at h
  · exact absurd h (by simp)
  · rename_i s1 env1 log hal
    obtain ⟨rfl, rfl, rfl⟩ := by simpa using h
    obtain ⟨g1, g2, g3, _⟩ := alive_false hal
    refine ⟨g2, g3, ?_, ?_⟩
    · intro _ r hr
      simp at hr
    · intro hn
      rw [g1]
      refine ⟨hn, ?_⟩
      intro r hr
      simp at hr
  · rename_i s1 env1 log hal
    obtain ⟨g1, g2, g3, _⟩ := alive_false hal
    split at h
    · obtain ⟨f1, f2, f3, f4⟩ := readLoop_inv h
      refine ⟨f1.trans g2, f2.trans g3, f3, ?_⟩
      intro hn
      rw [← g1] at hn
      exact f4 hn
    · exact absurd h (by simp)

theorem cacheHit_of_nil {size : Nat} {s : PTYState} (h : s.cache = []) :
    cacheHit size s = none := by
  simp [cacheHit, h]

theorem readLoop_stuck {platform : String} {start : Int} {fuel : Nat}
    {s : PTYState} (hc : s.cache = []) (n : Nat) :
    readLoop platform 0 0 start s (List.replicate n (OsEvent.selRead false))
      fuel = none := by
  induction fuel generalizing s n with
  | zero => simp [readLoop]
  | succ fuel ih =>
      cases n with
      | zero =>
          simp [readLoop, cacheHit_of_nil hc, pollIngest]
      | succ n =>
          rw [List.replicate_succ]
          simp only [readLoop, cacheHit_of_nil hc, pollIngest, hc,
            if_true, if_pos rfl]
          exact ih hc n

theorem read_stuck {platform : String} {s : PTYState} {c : Nat} {t : Int}
    (hch : s.child = some c) (hc : s.cache = []) (n fuel : Nat) :
    read platform 0 0 s
      (OsEvent.wp 0 0 :: OsEvent.tm t ::
        List.replicate n (OsEvent.selRead false)) fuel = none := by
  cases fuel with
  | zero => simp [read, alive]
  | succ fuel =>
      unfold read alive aliveCheck
      rw [hch]
      simp only [aliveWait, if_pos rfl]
      exact readLoop_stuck hc n

theorem findLoop_zero_eq (patts : List Pat) (timeout start : Int)
    (platform : String) (data : List Byte) (s : PTYState)
    (env : List OsEvent) :
    findLoop patts timeout start platform data s env 0 = none := rfl

theorem findLoop_succ_eq (patts : List Pat) (timeout start : Int)
    (platform : String) (data : List Byte) (s : PTYState)
    (env : List OsEvent) (fuel : Nat) :
    findLoop patts timeout start platform data s env (Nat.succ fuel)
      = match searchFirst patts data with
        | some (n, e) =>
            some (Except.ok (some n, some (stripCR (data.take e))),
                  { s with cache := data.drop e }, env, [])
        | none =>
            if timeout = 0 then some (Except.ok (none, none), s, env, [])
            else if 0 < timeout then
              match env with
              | OsEvent.tm now :: env1 =>
                  if timeout < now - start then
                    some (Except.ok (none, none), { s with cache := data },
                          env1, [])
                  else
                    match read platform 0 pollDelay s env1 fuel with
                    | none => none
                    | some (Except.error _, s1, env2) =>
                        some (Except.error Err.parseFail, s1, env2, [])
                    | some (Except.ok r, s1, env2) =>
                        match findLoop patts timeout start platform (data ++ r)
                            s1 env2 fuel with
                        | none => none
                        | some (res, s2, env3, log) =>
                            some (res, s2, env3, r :: log)
              | _ => none
            else
              match read platform 0 pollDelay s env fuel with
              | none => none
              | some (Except.error _, s1, env2) =>
                  some (Except.error Err.parseFail, s1, env2, [])
              | some (Except.ok r, s1, env2) =>
                  match findLoop patts timeout start platform (data ++ r)
                      s1 env2 fuel with
                  | none => none
                  | some (res, s2, env3, log) =>
                      some (res, s2, env3, r :: log) := rfl

theorem findLoop_inv {patts : List Pat} {timeout start : Int}
    {platform : String} {data : List Byte} {s : PTYState}
    {env : List OsEvent} {fuel : Nat}
    {res : Except Err (Option Nat × Option (List Byte))} {s' : PTYState}
    {env' : List OsEvent} {log : List (List Byte)}
    (h : findLoop patts timeout start platform data s env fuel
           = some (res, s', env', log)) :
    s'.recover_attempts = s.recover_attempts ∧
    s'.recover_max = s.recover_max ∧
    (noCR data → noCR s.cache → noCR s'.cache) := by
  induction fuel generalizing data s env res s' env' log with
  | zero => simp [findLoop_zero_eq] at h
  | succ fuel ih =>
      rw [findLoop_succ_eq] at h
      split at h
      · obtain ⟨rfl, rfl, rfl, rfl⟩ := by simpa using h
        exact ⟨rfl, rfl, fun hd _ => noCR_sub (List.drop_subset _ _) hd⟩
      · split at h
        · obtain ⟨rfl, rfl, rfl, rfl⟩ := by simpa using h
          exact ⟨rfl, rfl, fun _ hs => hs⟩
        · split at h
          · split at h
            · split at h
              · obtain ⟨rfl, rfl, rfl, rfl⟩ := by simpa using h
                exact ⟨rfl, rfl, fun hd _ => hd⟩
              · split at h
                · exact absurd h (by simp)
                · rename_i s1 env2 hrd
                  obtain ⟨g1, g2, _, g4⟩ := read_inv hrd
                  obtain ⟨rfl, rfl, rfl, rfl⟩ := by simpa using h
                  refine ⟨g1, g2, ?_⟩
                  intro _ hs
                  exact (g4 hs).1
                · rename_i r s1 env2 hrd
                  obtain ⟨g1, g2, _, g4⟩ := read_inv hrd
                  split at h
                  · exact absurd h (by simp)
                  · rename_i res2 s2 env3 log2 hfl
                    obtain ⟨f1, f2, f3⟩ := ih hfl
                    obtain ⟨rfl, rfl, rfl, rfl⟩ := by simpa using h
                    refine ⟨f1.trans g1, f2.trans g2, ?_⟩
                    intro hd hs
                    obtain ⟨hs1, hok⟩ := g4 hs
                    exact f3 (noCR_append hd (hok r rfl)) hs1
            · exact absurd h (by simp)
          · split at h
            · exact absurd h (by simp)
            · rename_i s1 env2 hrd
              obtain ⟨g1, g2, _, g4⟩ := read_inv hrd
              obtain ⟨rfl, rfl, rfl, rfl⟩ := by simpa using h
              refine ⟨g1, g2, ?_⟩
              intro _ hs
              exact (g4 hs).1
            · rename_i r s1 env2 hrd
              obtain ⟨g1, g2, _, g4⟩ := read_inv hrd
              split at h
              · exact absurd h (by simp)
              · rename_i res2 s2 env3 log2 hfl
                obtain ⟨f1, f2, f3⟩ := ih hfl
                obtain ⟨rfl, rfl, rfl, rfl⟩ := by simpa using h
                refine ⟨f1.trans g1, f2.trans g2, ?_⟩
                intro hd hs
                obtain ⟨hs1, hok⟩ := g4 hs
                exact f3 (noCR_append hd (hok r rfl)) hs1

theorem findLoop_match_run {patts : List Pat} {timeout start : Int}
    {platform : String} {data : List Byte} {s : PTYState}
    {env : List OsEvent} {fuel : Nat} {n : Nat} {ret : List Byte}
    {s' : PTYState} {env' : List OsEvent} {log : List (List Byte)}
    (h : findLoop patts timeout start platform data s env fuel
           = some (Except.ok (some n, some ret), s', env', log)) :
    ∃ e, searchFirst patts (data ++ log.flatten) = some (n, e) ∧
      ret = stripCR ((data ++ log.flatten).take e) ∧
      s'.cache = (data ++ log.flatten).drop e := by
  induction fuel generalizing data s env s' env' log with
  | zero => simp [findLoop_zero_eq] at h
  | succ fuel ih =>
      rw [findLoop_succ_eq] at h
      split at h
      · rename_i n0 e0 hsf
        obtain ⟨⟨rfl, hret⟩, hs, rfl, rfl⟩ := by simpa using h
        refine ⟨e0, by simpa using hsf, by simpa using hret.symm, ?_⟩
        rw [← hs]
        simp
      · split at h
        · exact absurd h (by simp)
        · split at h
          · split at h
            · split at h
              · exact absurd h (by simp)
              · split at h
                · exact absurd h (by simp)
                · exact absurd h (by simp)
                · split at h
                  · exact absurd h (by simp)
                  · rename_i hfl
                    obtain ⟨rfl, rfl, rfl, rfl⟩ := by simpa using h
                    simpa [List.append_assoc] using ih hfl
            · exact absurd h (by simp)
          · split at h
            · exact absurd h (by simp)
            · exact absurd h (by simp)
            · split at h
              · exact absurd h (by simp)
              · rename_i hfl
                obtain ⟨rfl, rfl, rfl, rfl⟩ := by simpa using h
                simpa [List.append_assoc] using ih hfl

theorem findLoop_restore {patts : List Pat} {timeout start : Int}
    {platform : String} {data : List Byte} {s : PTYState}
    {env : List OsEvent} {fuel : Nat} {s' : PTYState} {env' : List OsEvent}
    {log : List (List Byte)} (ht : 0 < timeout)
    (h : findLoop patts timeout start platform data s env fuel
           = some (Except.ok (none, none), s', env', log)) :
    s'.cache = data ++ log.flatten := by
  induction fuel generalizing data s env s' env' log with
  | zero => simp [findLoop_zero_eq] at h
  | succ fuel ih =>
      rw [findLoop_succ_eq] at h
      split at h
      · exact absurd h (by simp)
      · rw [if_neg (by omega : ¬timeout = 0), if_pos ht] at h
        split at h
        · split at h
          · obtain ⟨hs, rfl, rfl⟩ := by simpa using h
            rw [← hs]
            simp
          · split at h
            · exact absurd h (by simp)
            · exact absurd h (by simp)
            · split at h
              · exact absurd h (by simp)
              · rename_i r s1 env2 hrd res2 s2 env3 log2 hfl
                obtain ⟨rfl, rfl, rfl, rfl⟩ := by simpa using h
                have hrec := ih hfl
                rw [hrec]
                simp
        · exact absurd h (by simp)

theorem findLoop_t0 {patts : List Pat} {start : Int} {platform : String}
    {data : List Byte} {s : PTYState} {env : List OsEvent} {fuel : Nat}
    {s' : PTYState} {env' : List OsEvent} {log : List (List Byte)}
    (h : findLoop patts 0 start platform data s env fuel
           = some (Except.ok (none, none), s', env', log)) :
    s' = s ∧ env' = env ∧ log = [] := by
  cases fuel with
  | zero => simp [findLoop_zero_eq] at h
  | succ fuel =>
      rw [findLoop_succ_eq] at h
      split at h
      · exact absurd h (by simp)
      · rw [if_pos rfl] at h
        obtain ⟨rfl, rfl, rfl⟩ := by simpa using h
        exact ⟨rfl, rfl, rfl⟩

theorem find_inv {patts : List Pat} {timeout : Int} {platform : String}
    {s : PTYState} {env : List OsEvent} {fuel : Nat}
    {res : Except Err (Option Nat × Option (List Byte))} {s' : PTYState}
    {env' : List OsEvent} {log : List (List Byte)}
    (h : find patts timeout platform s env fuel = some (res, s', env', log)) :
    s'.recover_attempts = s.recover_attempts ∧
    s'.recover_max = s.recover_max ∧
    (noCR s.cache → noCR s'.cache) := by
  unfold find at h
  split at h
  · split at h
    · split at h
      · exact absurd h (by simp)
      · rename_i s1 env2 hrd
        obtain ⟨g1, g2, _, g4⟩ := read_inv hrd
        obtain ⟨rfl, rfl, rfl, rfl⟩ := by simpa using h
        exact ⟨g1, g2, fun _ => (g4 noCR_nil).1⟩
      · rename_i r s1 env2 hrd
        obtain ⟨g1, g2, _, g4⟩ := read_inv hrd
        split at h
        · exact absurd h (by simp)
        · rename_i res2 s2 env3 log2 hfl
          obtain ⟨f1, f2, f3⟩ := findLoop_inv hfl
          obtain ⟨rfl, rfl, rfl, rfl⟩ := by simpa using h
          refine ⟨f1.trans g1, f2.trans g2, fun _ => ?_⟩
          exact f3 ((g4 noCR_nil).2 r rfl) (g4 noCR_nil).1
    · rename_i hne
      obtain ⟨f1, f2, f3⟩ := findLoop_inv h
      exact ⟨f1, f2, fun hn => f3 hn noCR_nil⟩
  · exact absurd h (by simp)

theorem find_match_run {patts : List Pat} {timeout : Int}
    {platform : String} {s : PTYState} {env : List OsEvent} {fuel : Nat}
    {n : Nat} {ret : List Byte} {s' : PTYState} {env' : List OsEvent}
    {log : List (List Byte)}
    (h : find patts timeout platform s env fuel
           = some (Except.ok (some n, some ret), s', env', log)) :
    ∃ e, searchFirst patts (s.cache ++ log.flatten) = some (n, e) ∧
      ret = stripCR ((s.cache ++ log.flatten).take e) ∧
      s'.cache = (s.cache ++ log.flatten).drop e := by
  unfold find at h
  split at h
  · split at h
    · rename_i hnil
      split at h
      · exact absurd h (by simp)
      · exact absurd h (by simp)
      · rename_i r s1 env2 hrd
        split at h
        · exact absurd h (by simp)
        · rename_i res2 s2 env3 log2 hfl
          obtain ⟨rfl, rfl, rfl, rfl⟩ := by simpa using h
          have hda : s.cache ++ (r :: log2).flatten = r ++ log2.flatten := by
            rw [hnil]
            simp
          rw [hda]
          exact findLoop_match_run hfl
    · exact findLoop_match_run h
  · exact absurd h (by simp)

theorem find_restore {patts : List Pat} {timeout : Int} {platform : String}
    {s : PTYState} {env : List OsEvent} {fuel : Nat} {s' : PTYState}
    {env' : List OsEvent} {log : List (List Byte)} (ht : 0 < timeout)
    (h : find patts timeout platform s env fuel
           = some (Except.ok (none, none), s', env', log)) :
    s'.cache = s.cache ++ log.flatten := by
  unfold find at h
  split at h
  · split at h
    · rename_i hnil
      split at h
      · exact absurd h (by simp)
      · exact absurd h (by simp)
      · split at h
        · exact absurd h (by simp)
        · rename_i r s1 env2 hrd res2 s2 env3 log2 hfl
          obtain ⟨rfl, rfl, rfl, rfl⟩ := by simpa using h
          rw [findLoop_restore ht hfl, hnil]
          simp
    · exact findLoop_restore ht h
  · exact absurd h (by simp)

theorem find_t0_cache {patts : List Pat} {platform : String} {s : PTYState}
    {env : List OsEvent} {fuel : Nat} {s' : PTYState} {env' : List OsEvent}
    {log : List (List Byte)}
    (h : find patts 0 platform s env fuel
           = some (Except.ok (none, none), s', env', log)) :
    s'.cache = [] := by
  unfold find at h
  split at h
  · split at h
    · split at h
      · exact absurd h (by simp)
      · exact absurd h (by simp)
      · rename_i r s1 env2 hrd
        split at h
        · exact absurd h (by simp)
        · rename_i res2 s2 env3 log2 hfl
          obtain ⟨rfl, rfl, rfl, rfl⟩ := by simpa using h
          obtain ⟨rfl, rfl, rfl⟩ := findLoop_t0 hfl
          exact (read_inv hrd).2.2.1 rfl r rfl
    · obtain ⟨rfl, rfl, rfl⟩ := findLoop_t0 h
      rfl
  · exact absurd h (by simp)

theorem writeLoop_state {data : List Byte} {s : PTYState}
    {env : List OsEvent} {fuel : Nat} {res : Except Err Unit}
    {s' : PTYState} {env' : List OsEvent}
    (h : writeLoop data s env fuel = some (res, s', env')) : s' = s := by
  induction fuel generalizing data env with
  | zero => exact absurd h (by simp [writeLoop])
  | succ fuel ih =>
      unfold writeLoop at h
      split at h
      · obtain ⟨rfl, rfl, rfl⟩ := by simpa using h
        rfl
      · split at h
        · exact ih h
        · exact ih h
        · exact absurd h (by simp)

theorem write_inv {data : List Byte} {s : PTYState} {env : List OsEvent}
    {fuel : Nat} {res : Except Err Unit} {s' : PTYState}
    {env' : List OsEvent}
    (h : write data s env fuel = some (res, s', env')) :
    s'.cache = s.cache ∧ s'.recover_attempts = s.recover_attempts ∧
    s'.recover_max = s.recover_max := by
  unfold write at h
  split at h
  · exact absurd h (by simp)
  · rename_i s1 env1 log hal
    obtain ⟨g1, g2, g3, _⟩ := alive_false hal
    obtain ⟨rfl, rfl, rfl⟩ := by simpa using h
    exact ⟨g1, g2, g3⟩
  · rename_i s1 env1 log hal
    obtain ⟨g1, g2, g3, _⟩ := alive_false hal
    obtain rfl := writeLoop_state h
    exact ⟨g1, g2, g3⟩

theorem wait_zero_eq (s : PTYState) (env : List OsEvent) :
    wait s env 0 = none := rfl

theorem wait_succ_eq (s : PTYState) (env : List OsEvent) (fuel : Nat) :
    wait s env (Nat.succ fuel) =
      match s.child with
      | none => some (Except.ok (), s, env)
      | some _ =>
          match env with
          | OsEvent.wpErr echild :: env1 =>
              if echild then
                match finalize none
                    { s with exit_code := none, exit_signal := none } env1 with
                | none => none
                | some (s1, env2, _) => some (Except.ok (), s1, env2)
              else some (Except.error Err.waitFail, s, env1)
          | OsEvent.wp wpid wstat :: env1 =>
              if wpid = 0 then wait s env1 fuel
              else if wifstopped wstat || wifcontinued wstat then
                wait s env1 fuel
              else
                match finalize (some wstat) { s with child := none } env1 with
                | none => none
                | some (s1, env2, _) => some (Except.ok (), s1, env2)
          | _ => none := rfl

theorem wait_inv {s : PTYState} {env : List OsEvent} {fuel : Nat}
    {res : Except Err Unit} {s' : PTYState} {env' : List OsEvent}
    (h : wait s env fuel = some (res, s', env')) :
    s'.cache = s.cache ∧ s'.recover_attempts = s.recover_attempts ∧
    s'.recover_max = s.recover_max := by
  induction fuel generalizing env res s' env' with
  | zero => simp [wait_zero_eq] at h
  | succ fuel ih =>
      rw [wait_succ_eq] at h
      split at h
      · obtain ⟨rfl, rfl, rfl⟩ := by simpa using h
        exact ⟨rfl, rfl, rfl⟩
      · split at h
        · split at h
          · split at h
            · exact absurd h (by simp)
            · rename_i hfin
              obtain ⟨rfl, rfl, rfl⟩ := by simpa using h
              have hf := finalize_frame hfin
              exact ⟨hf.1, hf.2.1, hf.2.2.1⟩
          · obtain ⟨rfl, rfl, rfl⟩ := by simpa using h
            exact ⟨rfl, rfl, rfl⟩
        · split at h
          · exact ih h
          · split at h
            · exact ih h
            · split at h
              · exact absurd h (by simp)
              · rename_i hfin
                obtain ⟨rfl, rfl, rfl⟩ := by simpa using h
                have hf := finalize_frame hfin
                exact ⟨hf.1, hf.2.1, hf.2.2.1⟩
        · exact absurd h (by simp)
theorem closeOut_snd_open {s : PTYState} {f : Nat}
    (h : s.parent_out = some f) : (closeOut s).2 = 1 := by
  unfold closeOut
  rw [h]

theorem closeOut_snd_closed {s : PTYState} (h : s.parent_out = none) :
    (closeOut s).2 = 0 := by
  unfold closeOut
  rw [h]

theorem closeOut_closed {s : PTYState} (h : s.parent_out = none) :
    closeOut s = (s, 0) := by
  unfold closeOut
  rw [h]

theorem withChild_none_eq {s : PTYState} (h : s.child = none) :
    { s with child := none } = s := by
  cases s
  simp only [PTYState.mk.injEq, and_true, true_and]
  simp at h
  simp [h]

theorem finalize_idem {s : PTYState} (h1 : s.child = none)
    (h2 : s.parent_out = none) (env : List OsEvent) :
    finalize none s env = some (s, env, 0) := by
  simp [finalize, h1, withChild_none_eq h1, classify, closeOut_closed h2]

theorem autopsy_state (s : PTYState) : (autopsy s).2 = s := by
  unfold autopsy
  split <;> rfl

theorem readLoop_zero_eq (platform : String) (size : Nat)
    (timeout start : Int) (s : PTYState) (env : List OsEvent) :
    readLoop platform size timeout start s env 0 = none := rfl

theorem readLoop_succ_eq (platform : String) (size : Nat)
    (timeout start : Int) (s : PTYState) (env : List OsEvent) (fuel : Nat) :
    readLoop platform size timeout start s env (Nat.succ fuel)
      = match cacheHit size s with
        | some (r, s1) => some (Except.ok r, s1, env)
        | none =>
            match pollIngest platform s env with
            | none => none
            | some (PollOut.eofStop res s1 env1) => some (res, s1, env1)
            | some (PollOut.cont s2 env2) =>
                match cacheHit size s2 with
                | some (r, s3) => some (Except.ok r, s3, env2)
                | none =>
                    if timeout = 0 then
                      if s2.cache = [] then
                        readLoop platform size timeout start s2 env2 fuel
                      else
                        some (Except.ok s2.cache, { s2 with cache := [] },
                              env2)
                    else if timeout < 0 then
                      some (Except.ok s2.cache, { s2 with cache := [] }, env2)
                    else
                      match env2 with
                      | OsEvent.tm now :: env3 =>
                          if timeout < now - start then
                            some (Except.ok s2.cache, { s2 with cache := [] },
                                  env3)
                          else
                            readLoop platform size timeout start s2 env3 fuel
                      | _ => none := rfl

theorem readLoop_darwin_eof {s : PTYState} {c p w : Nat} {size : Nat}
    {timeout start : Int} {env' : List OsEvent} {fuel : Nat}
    (hch : s.child = some c) (hmiss : cacheHit size s = none) (hp : p ≠ 0) :
    readLoop "darwin" size timeout start s
        (OsEvent.selRead true :: OsEvent.rd [] :: OsEvent.wp p w :: env')
        (Nat.succ fuel)
      = some (Except.error (Err.eof (lastN 256 s.cache)),
              (closeOut (classify (some w) { s with child := none })).1,
              env') := by
  have hfin : finalize none s (OsEvent.wp p w :: env')
      = some ((closeOut (classify (some w) { s with child := none })).1,
              env',
              (closeOut (classify (some w) { s with child := none })).2) := by
    unfold finalize
    rw [hch]
    unfold finWait
    rw [if_neg hp]
  rw [readLoop_succ_eq, hmiss]
  simp [pollIngest, hfin]

/-- Claim C1, counterexample.  The claim states that `read(size=0, timeout=0)`
on a live child with an empty cache and polls that never deliver data
terminates and returns the empty byte string.  On this concrete run (live
child, empty cache, three empty polls, ample fuel) the call would have to
yield `some (Except.ok [], _, _)`; instead the loop is still running
(`none`): with `timeout == 0` the code only returns when the cache holds
data (source line 536-541, comment "only return if we have data"). -/
theorem C1_counterexample :
    read "linux" 0 0 exAlive
      [OsEvent.wp 0 0, OsEvent.tm 0, OsEvent.selRead false,
       OsEvent.selRead false, OsEvent.selRead false] 10 = none := by
  rfl

/-- Claim C1, amended.  `read(size=0, timeout=0)` on a live child with an
empty cache never returns while the polls deliver no data: for every number
`n` of empty polls and every fuel the call is still looping; it does not
terminate with the empty byte string. -/
theorem C1_read_timeout0_no_data_loops (platform : String) (s : PTYState)
    (c : Nat) (t : Int) (n fuel : Nat)
    (hch : s.child = some c) (hc : s.cache = []) :
    read platform 0 0 s
      (OsEvent.wp 0 0 :: OsEvent.tm t ::
        List.replicate n (OsEvent.selRead false)) fuel = none :=
  read_stuck hch hc n fuel

/-- Claim C1, witness for the amended theorem at a concrete input. -/
theorem C1_witness :
    read "linux" 0 0 exAlive
      (OsEvent.wp 0 0 :: OsEvent.tm 0 ::
        List.replicate 2 (OsEvent.selRead false)) 7 = none :=
  C1_read_timeout0_no_data_loops "linux" exAlive 7 0 2 7 rfl rfl

/-- Claim C2.  Every successful `find` returns the pair (index of the
matching pattern, first `e` bytes of the accumulated data with all 0x0D
bytes absent) and leaves exactly the accumulated data from position `e`
onward in the cache - where the accumulated data is pinned to the run: it
is the bytes drained from the cache at entry followed by every byte the
sub-reads delivered (the ghost log of the call), and `e` is the match end
of the first-in-list successful search on that data. -/
theorem C2_find_success (patts : List Pat) (timeout : Int)
    (platform : String) (s : PTYState) (env : List OsEvent) (fuel : Nat)
    (n : Nat) (ret : List Byte) (s' : PTYState) (env' : List OsEvent)
    (log : List (List Byte))
    (h : find patts timeout platform s env fuel
           = some (Except.ok (some n, some ret), s', env', log)) :
    ∃ e, searchFirst patts (s.cache ++ log.flatten) = some (n, e) ∧
      ret = stripCR ((s.cache ++ log.flatten).take e) ∧
      s'.cache = (s.cache ++ log.flatten).drop e :=
  find_match_run h

/-- Claim C2, witness: a concrete successful blocking `find` (pattern `"!"`
arrives in a sub-read after the cached byte `"h"`) instantiating the
theorem; the accumulated data is the drained cache plus the logged
sub-read. -/
theorem C2_witness :
    ∃ e, searchFirst [litPat [33]]
        (({ exAlive with cache := [104] } : PTYState).cache
          ++ ([[33]] : List (List Byte)).flatten) = some (0, e) ∧
      [104, 33] = stripCR
        ((({ exAlive with cache := [104] } : PTYState).cache
          ++ ([[33]] : List (List Byte)).flatten).take e) ∧
      exAlive.cache
        = (({ exAlive with cache := [104] } : PTYState).cache
          ++ ([[33]] : List (List Byte)).flatten).drop e :=
  C2_find_success [litPat [33]] (-1) "linux"
    { exAlive with cache := [104] }
    [OsEvent.tm 0, OsEvent.wp 0 0, OsEvent.tm 1, OsEvent.selRead true,
     OsEvent.rd [13, 33]] 5
    0 [104, 33] exAlive [] [[33]] (by rfl)

/-- Claim C3.  `find` evaluates the patterns in list order within a pass and
returns on the first whose search succeeds: a successful `searchFirst` at
index `n` means pattern `n` matched and every earlier pattern failed; and
concretely, with buffer bytes "ab" and patterns ["b", "a"], `find` returns
`(0, "ab")` - the listed-first pattern wins even though pattern "a" matches
at an earlier buffer position. -/
theorem C3_first_in_list_wins :
    (∀ (patts : List Pat) (data : List Byte) (n e : Nat),
        searchFirst patts data = some (n, e) →
          (∃ p sp, patts[n]? = some p ∧ p data = some (sp, e)) ∧
          (∀ m q, m < n → patts[m]? = some q → q data = none)) ∧
    find [litPat [98], litPat [97]] 0 "linux"
        { exAlive with cache := [97, 98] } [OsEvent.tm 0] 1
      = some (Except.ok (some 0, some [97, 98]), exAlive, [], []) := by
  constructor
  · intro patts data n e h
    induction patts generalizing n e with
    | nil => simp [searchFirst] at h
    | cons p rest ih =>
        unfold searchFirst at h
        rcases hp : p data with _ | ⟨sp, e0⟩
        · rw [hp] at h
          rcases hs : searchFirst rest data with _ | ⟨n', e'⟩
          · rw [hs] at h
            simp at h
          · rw [hs] at h
            obtain ⟨rfl, rfl⟩ := by simpa using h
            obtain ⟨⟨q, sq, hget, hq⟩, hlt⟩ := ih n' e' hs
            refine ⟨⟨q, sq, by simpa using hget, hq⟩, ?_⟩
            intro m q' hm hget'
            cases m with
            | zero =>
                simp at hget'
                rw [← hget']
                exact hp
            | succ m =>
                simp at hget'
                exact hlt m q' (by omega) hget'
        · rw [hp] at h
          obtain ⟨rfl, rfl⟩ := by simpa using h
          refine ⟨⟨p, sp, by simp, hp⟩, ?_⟩
          intro m q hm hget
          omega
  · rfl

/-- Claim C3, witness: the pattern-order conjunct instantiated at the
concrete pass of the example (pattern "b" succeeds at index 0 with match
end 2 on buffer "ab"). -/
theorem C3_witness :
    (∃ p sp, [litPat [98], litPat [97]][0]? = some p ∧
        p [97, 98] = some (sp, 2)) ∧
    (∀ m q, m < 0 → [litPat [98], litPat [97]][m]? = some q →
        q [97, 98] = none) :=
  C3_first_in_list_wins.1 [litPat [98], litPat [97]] [97, 98] 0 2 (by rfl)

/-- Claim C4.  A `find` with positive timeout that misses every pattern and
expires returns `(none, none)` and restores into the cache the bytes it
drained from the cache at entry together with every byte its sub-reads
delivered during the call (the ghost log records the sub-read returns), so
no bytes are lost. -/
theorem C4_find_timeout_restores (patts : List Pat) (timeout : Int)
    (platform : String) (s : PTYState) (env : List OsEvent) (fuel : Nat)
    (s' : PTYState) (env' : List OsEvent) (log : List (List Byte))
    (ht : 0 < timeout)
    (h : find patts timeout platform s env fuel
           = some (Except.ok (none, none), s', env', log)) :
    s'.cache = s.cache ++ log.flatten :=
  find_restore ht h

/-- Claim C4, witness: a concrete expiring `find` (pattern "q" never
arrives; one sub-read delivers `"\r!"`) whose final cache is the drained
cache plus the carriage-return-stripped read bytes. -/
theorem C4_witness :
    ({ exAlive with cache := [104, 105, 33] } : PTYState).cache
      = ({ exAlive with cache := [104, 105] } : PTYState).cache
          ++ [[33]].flatten :=
  C4_find_timeout_restores [litPat [113]] 2 "linux"
    { exAlive with cache := [104, 105] }
    [OsEvent.tm 0, OsEvent.tm 1, OsEvent.wp 0 0, OsEvent.tm 5,
     OsEvent.selRead true, OsEvent.rd [13, 33], OsEvent.tm 6] 6
    { exAlive with cache := [104, 105, 33] } [] [[33]]
    (by decide) (by rfl)

/-- Claim C10.  A `find` with timeout 0 that misses in its single pass
returns `(none, none)` with the cache left empty: the bytes drained from
the cache at entry and any bytes read during the pass are discarded -
neither returned nor restored. -/
theorem C10_find_timeout0_discards (patts : List Pat) (platform : String)
    (s : PTYState) (env : List OsEvent) (fuel : Nat) (s' : PTYState)
    (env' : List OsEvent) (log : List (List Byte))
    (h : find patts 0 platform s env fuel
           = some (Except.ok (none, none), s', env', log)) :
    s'.cache = [] :=
  find_t0_cache h

/-- Claim C10, witness: a concrete missing `find(timeout=0)` over cached
bytes "xyz"; the state it leaves behind has an empty cache. -/
theorem C10_witness : exAlive.cache = [] :=
  C10_find_timeout0_discards [litPat [113]] "linux"
    { exAlive with cache := [120, 121, 122] } [OsEvent.tm 0] 3
    exAlive [] [] (by rfl)

/-- Claim C5, counterexample.  The claim states that on every platform a
zero-length read from a ready master fd finalizes and raises UnexpectedEOF.
On the linux platform the concrete run below meets exactly that situation
(fd polled ready, `os.read` returns zero bytes) yet the call neither
finalizes nor raises: it returns normally with empty data and the child
still present - the source gates the EOF check on `sys.platform ==
'darwin'` (line 498). -/
theorem C5_counterexample :
    read "linux" 0 (-1) exAlive
        [OsEvent.wp 0 0, OsEvent.tm 0, OsEvent.selRead true, OsEvent.rd []] 5
      = some (Except.ok [], exAlive, []) ∧ exAlive.child = some 7 :=
  ⟨rfl, rfl⟩

/-- Claim C5, amended.  On the darwin platform, a zero-length OS read from
a master fd that polled as ready (the loop polls exactly when the cache
cannot satisfy the request, `cacheHit size s = none`) makes `read` finalize
the controller (child pid cleared, master fd closed) and raise
UnexpectedEOF carrying the last 256 cache bytes as diagnostic context. -/
theorem C5_darwin_zero_read_eof (s : PTYState) (c : Nat) (size : Nat)
    (timeout : Int) (t0 : Int) (p w : Nat) (env' : List OsEvent) (fuel : Nat)
    (hch : s.child = some c) (hmiss : cacheHit size s = none) (hp : p ≠ 0) :
    read "darwin" size timeout s
        (OsEvent.wp 0 0 :: OsEvent.tm t0 :: OsEvent.selRead true ::
          OsEvent.rd [] :: OsEvent.wp p w :: env') (fuel + 2)
      = some (Except.error (Err.eof (lastN 256 s.cache)),
              (closeOut (classify (some w) { s with child := none })).1, env')
    ∧ ((closeOut (classify (some w) { s with child := none })).1).child
        = none
    ∧ ((closeOut (classify (some w) { s with child := none })).1).parent_out
        = none
    ∧ ((closeOut (classify (some w) { s with child := none })).1).cache
        = s.cache := by
  refine ⟨?_, by simp, by simp, by simp⟩
  unfold read alive aliveCheck
  rw [hch]
  simp only [aliveWait, if_pos rfl]
  exact readLoop_darwin_eof hch hmiss hp

/-- Claim C5, witness for the amended theorem at the canonical scenario: a
default-size read (`size=0`, `timeout=0`) on a live child (pid 7) with an
empty cache hitting the zero-length chunk on darwin. -/
theorem C5_witness :
    read "darwin" 0 0 exAlive
        (OsEvent.wp 0 0 :: OsEvent.tm 0 :: OsEvent.selRead true ::
          OsEvent.rd [] :: OsEvent.wp 7 9 :: []) 3
      = some (Except.error (Err.eof (lastN 256 exAlive.cache)),
              (closeOut (classify (some 9)
                { exAlive with child := none })).1, [])
    ∧ ((closeOut (classify (some 9)
          { exAlive with child := none })).1).child = none
    ∧ ((closeOut (classify (some 9)
          { exAlive with child := none })).1).parent_out = none
    ∧ ((closeOut (classify (some 9)
          { exAlive with child := none })).1).cache = exAlive.cache :=
  C5_darwin_zero_read_eof exAlive 7 0 0 0 7 9 [] 1 rfl (by rfl) (by decide)

/-- Claim C6.  Over every operation of the controller `recover_attempts` is
monotone non-decreasing (never reset); `alive(recover=true)` on a child the
probe reports dead returns false without spawning (empty ghost spawn log,
state exactly as the probe left it) once `recover_attempts ≥ recover_max`;
and every respawn `alive` ever performs is logged with a counter value that
is at most `recover_max`. -/
theorem C6_recover_bounds :
    (∀ (c : OpCall) (s s' : PTYState), runOpState c s = some s' →
        s.recover_attempts ≤ s'.recover_attempts) ∧
    (∀ (s : PTYState) (env : List OsEvent) (fuel : Nat) (s1 : PTYState)
        (env1 : List OsEvent),
        aliveCheck s env = some (false, s1, env1) →
        s.recover_max ≤ s.recover_attempts →
        alive true s env (fuel + 1) = some (false, s1, env1, [])) ∧
    (∀ (r : Bool) (s : PTYState) (env : List OsEvent) (fuel : Nat) (b : Bool)
        (s' : PTYState) (env' : List OsEvent) (log : List Nat),
        alive r s env fuel = some (b, s', env', log) →
        ∀ a ∈ log, a ≤ s.recover_max) := by
  refine ⟨?_, ?_, ?_⟩
  · intro c s s' h
    cases c with
    | rdOp p sz t env fu =>
        simp only [runOpState, Option.map_eq_some'] at h
        obtain ⟨⟨res, s2, env2⟩, hr, rfl⟩ := h
        exact le_of_eq (read_inv hr).1.symm
    | findOp ps t p env fu =>
        simp only [runOpState, Option.map_eq_some'] at h
        obtain ⟨⟨res, s2, env2, log⟩, hr, rfl⟩ := h
        exact le_of_eq (find_inv hr).1.symm
    | writeOp d env fu =>
        simp only [runOpState, Option.map_eq_some'] at h
        obtain ⟨⟨res, s2, env2⟩, hr, rfl⟩ := h
        exact le_of_eq (write_inv hr).2.1.symm
    | aliveOp r env fu =>
        simp only [runOpState, Option.map_eq_some'] at h
        obtain ⟨⟨b, s2, env2, log⟩, hr, rfl⟩ := h
        exact (alive_mono hr).1
    | waitOp env fu =>
        simp only [runOpState, Option.map_eq_some'] at h
        obtain ⟨⟨res, s2, env2⟩, hr, rfl⟩ := h
        exact le_of_eq (wait_inv hr).2.1.symm
    | finOp ws env =>
        simp only [runOpState, Option.map_eq_some'] at h
        obtain ⟨⟨s2, env2, k⟩, hr, rfl⟩ := h
        exact le_of_eq (finalize_frame hr).2.1.symm
    | autopsyOp =>
        simp only [runOpState, autopsy_state, Option.some.injEq] at h
        rw [← h]
  · intro s env fuel s1 env1 hac hle
    have h1 := (aliveCheck_frame hac).2.1
    have h2 := (aliveCheck_frame hac).2.2
    unfold alive
    rw [hac]
    simp [h1, h2, hle]
  · intro r s env fuel b s' env' log h
    exact (alive_mono h).2.2.2

/-- Claim C6, witness: the blocked-recovery conjunct at a concrete dead
controller whose three recovery attempts are already spent. -/
theorem C6_witness :
    alive true { exDead with recover_attempts := 3 } [] 1
      = some (false, { exDead with recover_attempts := 3 }, [], []) :=
  C6_recover_bounds.2.1 { exDead with recover_attempts := 3 } [] 0
    { exDead with recover_attempts := 3 } [] rfl (by decide)

/-- Claim C7.  When the liveness probe `alive(recover=False)` reports the
child dead, `read` raises the IoError-kind failure and so does `write`,
both leaving the state exactly as the probe left it: `recover_attempts`
and `recover_max` are unchanged and no respawn happens (empty ghost spawn
log). -/
theorem C7_dead_child_io (platform : String) (size : Nat) (timeout : Int)
    (d : List Byte) (s : PTYState) (env : List OsEvent) (fuel : Nat)
    (s1 : PTYState) (env1 : List OsEvent) (log : List Nat)
    (hal : alive false s env fuel = some (false, s1, env1, log)) :
    read platform size timeout s env fuel
        = some (Except.error Err.notAlive, s1, env1)
    ∧ write d s env fuel = some (Except.error Err.notAlive, s1, env1)
    ∧ s1.recover_attempts = s.recover_attempts
    ∧ s1.recover_max = s.recover_max ∧ log = [] := by
  obtain ⟨hc, hra, hrm, hlog⟩ := alive_false hal
  refine ⟨?_, ?_, hra, hrm, hlog⟩
  · unfold read
    rw [hal]
  · unfold write
    rw [hal]

/-- Claim C7, witness: concrete `read` and `write` on a reaped-dead
controller both fail with the IoError-kind error and change nothing. -/
theorem C7_witness :
    read "linux" 0 0 exDead [] 1 = some (Except.error Err.notAlive, exDead, [])
    ∧ write [10] exDead [] 1 = some (Except.error Err.notAlive, exDead, [])
    ∧ exDead.recover_attempts = exDead.recover_attempts
    ∧ exDead.recover_max = exDead.recover_max
    ∧ ([] : List Nat) = [] :=
  C7_dead_child_io "linux" 0 0 [10] exDead [] 1 exDead [] [] rfl

/-- Claim C8.  Every operation of the controller (read, find, write, alive,
wait, finalize, autopsy) preserves the invariant that the cache holds no
carriage-return byte: chunks are stripped of 0x0D at ingest and every byte
sequence stored back into the cache keeps the property. -/
theorem C8_cache_noCR (c : OpCall) (s : PTYState) (hn : noCR s.cache)
    (s' : PTYState) (h : runOpState c s = some s') : noCR s'.cache := by
  cases c with
  | rdOp p sz t env fu =>
      simp only [runOpState, Option.map_eq_some'] at h
      obtain ⟨⟨res, s2, env2⟩, hr, rfl⟩ := h
      exact ((read_inv hr).2.2.2 hn).1
  | findOp ps t p env fu =>
      simp only [runOpState, Option.map_eq_some'] at h
      obtain ⟨⟨res, s2, env2, log⟩, hr, rfl⟩ := h
      exact (find_inv hr).2.2 hn
  | writeOp d env fu =>
      simp only [runOpState, Option.map_eq_some'] at h
      obtain ⟨⟨res, s2, env2⟩, hr, rfl⟩ := h
      rw [(write_inv hr).1]
      exact hn
  | aliveOp r env fu =>
      simp only [runOpState, Option.map_eq_some'] at h
      obtain ⟨⟨b, s2, env2, log⟩, hr, rfl⟩ := h
      rw [(alive_mono hr).2.2.1]
      exact hn
  | waitOp env fu =>
      simp only [runOpState, Option.map_eq_some'] at h
      obtain ⟨⟨res, s2, env2⟩, hr, rfl⟩ := h
      rw [(wait_inv hr).1]
      exact hn
  | finOp ws env =>
      simp only [runOpState, Option.map_eq_some'] at h
      obtain ⟨⟨s2, env2, k⟩, hr, rfl⟩ := h
      rw [(finalize_frame hr).1]
      exact hn
  | autopsyOp =>
      simp only [runOpState, autopsy_state, Option.some.injEq] at h
      rw [← h]
      exact hn

/-- Claim C8, witness: a concrete `read` ingesting the chunk `"\r AB"`; the
state it leaves behind has the carriage return stripped from its cache. -/
theorem C8_witness :
    noCR ({ exAlive with cache := [66] } : PTYState).cache :=
  C8_cache_noCR
    (OpCall.rdOp "linux" 1 (-1)
      [OsEvent.wp 0 0, OsEvent.tm 0, OsEvent.selRead true,
       OsEvent.rd [13, 65, 66]] 5)
    exAlive (by intro b hb; simp [exAlive] at hb)
    { exAlive with cache := [66] } (by rfl)

/-- Claim C9.  `finalize` is idempotent: on a controller with a live child
and an open master fd the first call clears the child pid, closes the
master fd exactly once (close count 1) and leaves the cache alone, and a
second `finalize` on the already-finalized controller returns the state
entirely unchanged, performs no close (count 0), consumes no OS events and
raises nothing (`finalize` has no error outcome in the model, matching the
source, which swallows all errors of kill, waitpid and close). -/
theorem C9_finalize_idempotent (s : PTYState) (c f p w : Nat)
    (rest : List OsEvent)
    (hch : s.child = some c) (hpo : s.parent_out = some f) (hp : p ≠ 0) :
    finalize none s (OsEvent.wp p w :: rest)
        = some ((closeOut (classify (some w) { s with child := none })).1,
                rest, 1)
    ∧ ((closeOut (classify (some w) { s with child := none })).1).child
        = none
    ∧ ((closeOut (classify (some w) { s with child := none })).1).parent_out
        = none
    ∧ ((closeOut (classify (some w) { s with child := none })).1).cache
        = s.cache
    ∧ ∀ env2, finalize none
          ((closeOut (classify (some w) { s with child := none })).1) env2
        = some ((closeOut (classify (some w) { s with child := none })).1,
                env2, 0) := by
  refine ⟨?_, by simp, by simp, by simp, ?_⟩
  · unfold finalize
    rw [hch]
    unfold finWait
    rw [if_neg hp]
    simp [closeOut_snd_open
      (show (classify (some w) { s with child := none }).parent_out = some f
        by simp [hpo])]
  · intro env2
    have h1 : ((closeOut (classify (some w)
        { s with child := none })).1).child = none := by simp
    have h2 : ((closeOut (classify (some w)
        { s with child := none })).1).parent_out = none := by simp
    exact finalize_idem h1 h2 env2

/-- Claim C9, witness: the double finalize at a concrete controller (child
7, master fd 3, cached byte "h", reap status 9 = killed by SIGKILL). -/
theorem C9_witness :
    finalize none { exAlive with cache := [104] } (OsEvent.wp 7 9 :: [])
        = some ((closeOut (classify (some 9)
            { ({ exAlive with cache := [104] } : PTYState) with
                child := none })).1, [], 1)
    ∧ ((closeOut (classify (some 9)
          { ({ exAlive with cache := [104] } : PTYState) with
              child := none })).1).child = none
    ∧ ((closeOut (classify (some 9)
          { ({ exAlive with cache := [104] } : PTYState) with
              child := none })).1).parent_out = none
    ∧ ((closeOut (classify (some 9)
          { ({ exAlive with cache := [104] } : PTYState) with
              child := none })).1).cache
        = ({ exAlive with cache := [104] } : PTYState).cache
    ∧ ∀ env2, finalize none
          ((closeOut (classify (some 9)
            { ({ exAlive with cache := [104] } : PTYState) with
                child := none })).1) env2
        = some ((closeOut (classify (some 9)
            { ({ exAlive with cache := [104] } : PTYState) with
                child := none })).1, env2, 0) :=
  C9_finalize_idempotent { exAlive with cache := [104] } 7 3 7 9 [] rfl rfl
    (by decide)

end PtyModel
